import Mathlib

/-!
Verification development for the spectre expression language: a tokenizer
(src/lexer.rs), a recursive-descent parser (src/parser.rs) and a
tree-walking interpreter with chained environments (src/interpreter.rs).

Modelling conventions, stated once here:

* Rust `i64` is modelled as `Int` together with an explicit range check
  `i64chk`; an arithmetic overflow (which panics in the Rust code under the
  default debug profile, and unconditionally for division overflow and for
  a failing `Result::unwrap`) is modelled by the `abort` outcome (for the
  tokenizer, by `none`).
* Rust `f64` is modelled by `ℚ` with exact decimal/field semantics.  The
  claims settled below depend only on which `Value` variant a float
  computation produces and on the `== 0.0` divisor test, never on an IEEE
  rounded value, so the rounding of `f64` is abstracted away.  `powfQ`
  models `f64::powf` exactly at integer exponents and is otherwise an
  unused placeholder.
* `HashMap<String, Value>` is modelled as an association list where
  insertion conses in front and lookup takes the first match; this is
  observationally equivalent to the hash map for `insert`/`get`.
* The interpreter and the parser are partial (user functions can recurse
  forever; the parser helpers loop over token slices), so every recursive
  entry point is indexed by explicit fuel, structurally decreasing, which
  keeps all definitions kernel-computable.  Fuel exhaustion is a distinct
  sentinel (`Outcome.nofuel`, `ErrorKind.fuelOut`, `none` only after the
  per-character fuel of the tokenizer runs out) and is unreachable for the
  adequate fuel values used throughout (the tokenizer consumes at least one
  character per step, the parser consumes at least one token per step).
* Rust `char::is_alphanumeric` (Unicode) is approximated by the ASCII
  `Char.isAlphanum`; identifier continuation is the only place this
  matters and no claim distinguishes the two.
-/

/-! ## Tokens (src/lexer.rs, enum Token) -/

inductive Token where
  | identifier (text : String)
  | integer (n : Int)
  | float (f : ℚ)
  | plus
  | minus
  | times
  | div
  | pow
  | lparen
  | rparen
  | lbracket
  | rbracket
  | lcurly
  | rcurly
  | comma
  | whitespace
  | unknown (c : Char)
deriving Repr, DecidableEq

/-! ## Tokenizer (src/lexer.rs, fn tokenize) -/

/-- The single-character arms of the `match c` in `tokenize`
(brackets, comma and the five operator characters). -/
def singleTok : Char → Option Token
  | '(' => some Token.lparen
  | ')' => some Token.rparen
  | '[' => some Token.lbracket
  | ']' => some Token.rbracket
  | '{' => some Token.lcurly
  | '}' => some Token.rcurly
  | ',' => some Token.comma
  | '+' => some Token.plus
  | '-' => some Token.minus
  | '*' => some Token.times
  | '/' => some Token.div
  | '^' => some Token.pow
  | _ => none

/-- Continuation characters of a number run: `next_c.is_ascii_digit()`
or `next_c == '.'` in the inner lexer loop. -/
def numCont (c : Char) : Bool := c.isDigit || c = '.'

/-- Start characters of an identifier: the Rust arm
matching ASCII letters and underscore. -/
def identStart (c : Char) : Bool :=
  (('a' ≤ c && c ≤ 'z') || ('A' ≤ c && c ≤ 'Z') || c = '_')

/-- Continuation characters of an identifier:
`next_c.is_alphanumeric() || next_c == '_'` (ASCII approximation). -/
def identCont (c : Char) : Bool := c.isAlphanum || c = '_'

/-- The four whitespace characters recognized by the lexer. -/
def isWs (c : Char) : Bool := c = ' ' || c = '\t' || c = '\n' || c = '\r'

/-- Decimal value of a digit string, most significant digit first. -/
def digitsVal (l : List Char) : Nat :=
  l.foldl (fun a c => 10 * a + (c.toNat - 48)) 0

def i64min : Int := -(2 ^ 63)
def i64max : Int := 2 ^ 63 - 1

/-- Models `str::parse::<i64>` on the digit-only text of a number token:
it succeeds exactly when the value fits in `i64` (the token text carries
no sign, so only the upper bound can fail). -/
def parseI64 (s : List Char) : Option Int :=
  if (digitsVal s : Int) ≤ i64max then some (digitsVal s) else none

/-- Models `str::parse::<f64>` on number-run text made of digits and dots:
Rust accepts it exactly when it has exactly one dot and at least one
digit, and the value is the exact decimal (IEEE rounding abstracted). -/
def parseF64 (s : List Char) : Option ℚ :=
  if s.count '.' == 1 && s.any (fun c => c.isDigit) then
    some ((digitsVal (s.takeWhile (fun c => c ≠ '.')) : ℚ) +
      (digitsVal ((s.dropWhile (fun c => c ≠ '.')).drop 1) : ℚ) /
        (10 : ℚ) ^ ((s.dropWhile (fun c => c ≠ '.')).drop 1).length)
  else none

/-- Fuel-indexed body of `tokenize`.  One fuel unit is spent per loop
iteration of the Rust `while let Some(c) = chars.next()`; every iteration
consumes at least one character, so fuel `l.length` is always adequate.
`none` models a panic of the `unwrap` on a failed number parse. -/
def tokenizeF : Nat → List Char → Option (List Token)
  | _, [] => some []
  | 0, _ :: _ => none
  | fuel + 1, c :: cs =>
    match singleTok c with
    | some t => (tokenizeF fuel cs).map (fun ts => t :: ts)
    | none =>
      if numCont c then
        let run := c :: cs.takeWhile numCont
        let rest := cs.dropWhile numCont
        if run.contains '.' then
          match parseF64 run with
          | some q => (tokenizeF fuel rest).map (fun ts => Token.float q :: ts)
          | none => none
        else
          match parseI64 run with
          | some n => (tokenizeF fuel rest).map (fun ts => Token.integer n :: ts)
          | none => none
      else if identStart c then
        (tokenizeF fuel (cs.dropWhile identCont)).map
          (fun ts => Token.identifier (String.mk (c :: cs.takeWhile identCont)) :: ts)
      else if isWs c then
        (tokenizeF fuel cs).map (fun ts => Token.whitespace :: ts)
      else
        (tokenizeF fuel cs).map (fun ts => Token.unknown c :: ts)

/-- `tokenize(input: &str) -> Vec<Token>`, with `none` modelling a panic. -/
def tokenize (s : String) : Option (List Token) :=
  tokenizeF s.data.length s.data

/-- The number runs (maximal digit-and-dot substrings starting a number
token) that `tokenizeF` encounters, mirroring its recursion structure. -/
def numRunsF : Nat → List Char → List (List Char)
  | _, [] => []
  | 0, _ :: _ => []
  | fuel + 1, c :: cs =>
    match singleTok c with
    | some _ => numRunsF fuel cs
    | none =>
      if numCont c then
        (c :: cs.takeWhile numCont) :: numRunsF fuel (cs.dropWhile numCont)
      else if identStart c then
        numRunsF fuel (cs.dropWhile identCont)
      else
        numRunsF fuel cs

/-- A number run that both number-literal `unwrap`s survive: a dotted run
must be a valid float literal, a dotless run must fit in `i64`. -/
def goodRun (run : List Char) : Bool :=
  if run.contains '.' then (parseF64 run).isSome else (parseI64 run).isSome

/-! ## AST (src/ast.rs) -/

inductive Scope where
  | global
  | local_
deriving Repr, DecidableEq

inductive BinaryOperator where
  | plus
  | minus
  | times
  | div
  | pow
deriving Repr, DecidableEq

inductive UnaryOperator where
  | neg
deriving Repr, DecidableEq

/-- `Term` from src/ast.rs.  `ruleDef` models the `SyntaxDefinition`
variant (registering a named syntax rule; stored but never consulted). -/
inductive Term where
  | identifier (name : String)
  | integer (n : Int)
  | float (f : ℚ)
  | function (name : String) (params : List String) (body : Term)
  | functionCall (name : String) (args : List Term)
  | binaryOp (op : BinaryOperator) (left : Term) (right : Term)
  | unaryOp (op : UnaryOperator) (operand : Term)
  | ruleDef (name : String) (pattern : String) (precedence : Nat) (scope : Scope)

/-! ## Runtime values and environments (src/interpreter.rs) -/

/-- `Value` from src/interpreter.rs.  Note that the `function` variant
carries only the parameter list and the body: exactly as in the source,
a function value retains no environment component. -/
inductive Value where
  | integer (n : Int)
  | float (f : ℚ)
  | function (params : List String) (body : Term)
  | builtin (name : String)
  | unit

/-- `SyntaxRule` from src/interpreter.rs. -/
structure SynRule where
  name : String
  pattern : String
  precedence : Nat
  scope : Scope

/-- `Environment` from src/interpreter.rs: a current binding map, an
optional parent (`Option<Box<Environment>>`) and the syntax-rule list. -/
inductive Env where
  | mk (current : List (String × Value)) (parent : Option Env) (rules : List SynRule)

def Env.current : Env → List (String × Value)
  | .mk c _ _ => c

def Env.parentOf : Env → Option Env
  | .mk _ p _ => p

def Env.rules : Env → List SynRule
  | .mk _ _ r => r

/-- `Environment::lookup`: search the current scope, then the parent
chain outward. -/
def Env.lookup : Env → String → Option Value
  | .mk cur par _, n =>
    match (cur.find? (fun p => p.1 == n)).map (fun p => p.2) with
    | some v => some v
    | none =>
      match par with
      | some p => Env.lookup p n
      | none => none

/-- Lookup restricted to the current scope only. -/
def Env.lookupCur (e : Env) (n : String) : Option Value :=
  (e.current.find? (fun p => p.1 == n)).map (fun p => p.2)

/-- `Environment::bind`: insert/overwrite in the current scope only. -/
def Env.bind : Env → String → Value → Env
  | .mk cur par rules, n, v => .mk ((n, v) :: cur) par rules

/-- `Environment::add_syntax_rule`: push onto the rule list. -/
def Env.addRule : Env → SynRule → Env
  | .mk cur par rules, r => .mk cur par (rules ++ [r])

/-- `Environment::new`: root environment with the builtin `ID` and one
default syntax rule. -/
def Env.new : Env :=
  .mk [("ID", Value.builtin "ID")] none
    [{ name := "FUNCTION", pattern := "\x7bname\x7d(\x7bargs\x7d)",
       precedence := 1, scope := Scope.global }]

/-! ## Interpreter (src/interpreter.rs, impl Interpreter) -/

/-- Result of one evaluation: `interpret` returns `Result<Value, String>`
while mutating `self.env`; both are threaded here.  `abort` models a Rust
panic (checked arithmetic overflow), `nofuel` is the fuel sentinel. -/
inductive Outcome where
  | ok (v : Value) (env : Env)
  | err (e : String) (env : Env)
  | abort
  | nofuel

/-- Result of the argument-binding loop of a user-function call: on
success it produces the caller environment after all argument
evaluations together with the populated child environment. -/
inductive ArgsOut where
  | ok (envAfter : Env) (callee : Env)
  | err (e : String) (envAfter : Env)
  | abort
  | nofuel

/-- Result of `apply_binary_op` / `apply_unary_op` (no environment). -/
inductive OpOut where
  | ok (v : Value)
  | err (e : String)
  | abort

/-- Range check modelling Rust checked `i64` arithmetic: out-of-range
results panic (debug overflow check; division overflow always). -/
def i64chk (n : Int) : Option Int :=
  if i64min ≤ n ∧ n ≤ i64max then some n else none

def chkInt (n : Int) : OpOut :=
  match i64chk n with
  | some m => OpOut.ok (Value.integer m)
  | none => OpOut.abort

/-- Models `(l as f64).powf(r as f64)`: exact at integer exponents,
placeholder elsewhere (no claim depends on its value). -/
def powfQ (l r : ℚ) : ℚ :=
  if r.den = 1 then l ^ r.num else 0

/-- The `(Integer, Integer)` arm of `Interpreter::apply_binary_op`. -/
def applyIntOp : BinaryOperator → Int → Int → OpOut
  | .plus, l, r => chkInt (l + r)
  | .minus, l, r => chkInt (l - r)
  | .times, l, r => chkInt (l * r)
  | .div, l, r =>
    if r = 0 then OpOut.err "Division by zero" else chkInt (Int.tdiv l r)
  | .pow, l, r =>
    if r < 0 then OpOut.ok (Value.float (powfQ (l : ℚ) (r : ℚ)))
    else if r > 20 then OpOut.ok (Value.float (powfQ (l : ℚ) (r : ℚ)))
    else chkInt (l ^ r.toNat)

/-- The `(Float, Float)` arm of `Interpreter::apply_binary_op`; the two
mixed arms promote the integer side to float and land here. -/
def applyFloatOp : BinaryOperator → ℚ → ℚ → OpOut
  | .plus, l, r => OpOut.ok (Value.float (l + r))
  | .minus, l, r => OpOut.ok (Value.float (l - r))
  | .times, l, r => OpOut.ok (Value.float (l * r))
  | .div, l, r =>
    if r = 0 then OpOut.err "Division by zero" else OpOut.ok (Value.float (l / r))
  | .pow, l, r => OpOut.ok (Value.float (powfQ l r))

/-- `Interpreter::apply_binary_op`. -/
def applyBinaryOp (op : BinaryOperator) : Value → Value → OpOut
  | .integer l, .integer r => applyIntOp op l r
  | .float l, .float r => applyFloatOp op l r
  | .integer l, .float r => applyFloatOp op (l : ℚ) r
  | .float l, .integer r => applyFloatOp op l (r : ℚ)
  | _, _ => OpOut.err "Invalid types for binary operation"

/-- `Interpreter::apply_unary_op` (`-i64::MIN` is a checked overflow). -/
def applyUnaryOp : UnaryOperator → Value → OpOut
  | .neg, .integer n => chkInt (-n)
  | .neg, .float f => OpOut.ok (Value.float (-f))
  | .neg, _ => OpOut.err "Invalid type for negation"

def liftOp (env : Env) : OpOut → Outcome
  | .ok v => Outcome.ok v env
  | .err e => Outcome.err e env
  | .abort => Outcome.abort

/-- The argument loop of a user-function call:
`for (param, arg) in params.zip(args) { let value = self.interpret(arg)?;
new_env.bind(param, value); }`.  `rec` is the interpreter at the current
fuel; `env` is the mutating caller environment, `acc` the child
environment being populated. -/
def bindArgsWith (rec : Term → Env → Outcome) :
    List (String × Term) → Env → Env → ArgsOut
  | [], env, acc => ArgsOut.ok env acc
  | (p, a) :: rest, env, acc =>
    match rec a env with
    | .ok v env' => bindArgsWith rec rest env' (acc.bind p v)
    | .err e env' => ArgsOut.err e env'
    | .abort => ArgsOut.abort
    | .nofuel => ArgsOut.nofuel

/-- `Interpreter::call_builtin`. -/
def callBuiltinWith (rec : Term → Env → Outcome)
    (name : String) (args : List Term) (env : Env) : Outcome :=
  match name with
  | "ID" =>
    match args with
    | [a] => rec a env
    | _ => Outcome.err "ID takes exactly one argument" env
  | _ => Outcome.err ("Unknown builtin: " ++ name) env

/-- One layer of `Interpreter::interpret`; `rec` is the interpreter at
the next lower fuel.  The `FunctionCall` arm follows the source: arity
check, child environment whose parent is a clone of the current
environment taken at the call site, argument loop, swap, body, restore
of the pre-swap (post-arguments) environment on every path. -/
def interpretCore (rec : Term → Env → Outcome) : Term → Env → Outcome
  | .identifier name, env =>
    match env.lookup name with
    | some v => Outcome.ok v env
    | none => Outcome.err ("Undefined variable: " ++ name) env
  | .integer n, env => Outcome.ok (Value.integer n) env
  | .float f, env => Outcome.ok (Value.float f) env
  | .function name params body, env =>
    Outcome.ok (Value.function params body)
      (env.bind name (Value.function params body))
  | .functionCall name args, env =>
    match env.lookup name with
    | some (Value.builtin b) => callBuiltinWith rec b args env
    | some (Value.function params body) =>
      if params.length != args.length then
        Outcome.err ("Arity mismatch: " ++ name ++ " expected " ++
          toString params.length ++ " arguments, got " ++
          toString args.length) env
      else
        match bindArgsWith rec (params.zip args) env
            (Env.mk [] (some env) env.rules) with
        | .ok envAfter callee =>
          match rec body callee with
          | .ok v _ => Outcome.ok v envAfter
          | .err e _ => Outcome.err e envAfter
          | .abort => Outcome.abort
          | .nofuel => Outcome.nofuel
        | .err e envAfter => Outcome.err e envAfter
        | .abort => Outcome.abort
        | .nofuel => Outcome.nofuel
    | some _ => Outcome.err (name ++ " is not a function") env
    | none => Outcome.err ("Function not found: " ++ name) env
  | .binaryOp op l r, env =>
    match rec l env with
    | .ok lv env1 =>
      match rec r env1 with
      | .ok rv env2 => liftOp env2 (applyBinaryOp op lv rv)
      | o => o
    | o => o
  | .unaryOp op t, env =>
    match rec t env with
    | .ok v env1 => liftOp env1 (applyUnaryOp op v)
    | o => o
  | .ruleDef name pat prec sc, env =>
    Outcome.ok Value.unit
      (env.addRule { name := name, pattern := pat, precedence := prec, scope := sc })

/-- `Interpreter::interpret`, fuel-indexed (one unit per nesting level of
recursive evaluation). -/
def interpret : Nat → Term → Env → Outcome
  | 0, _, _ => Outcome.nofuel
  | fuel + 1, t, env => interpretCore (interpret fuel) t env

/-- The restore discipline around a call body: whatever the body
evaluation produced, the interpreter environment reverts to `envAfter`
(the caller environment saved by the swap). -/
def restoreWith (envAfter : Env) : Outcome → Outcome
  | .ok v _ => Outcome.ok v envAfter
  | .err e _ => Outcome.err e envAfter
  | .abort => Outcome.abort
  | .nofuel => Outcome.nofuel

/-! ## Parser (src/parser.rs)

Each looping or self-recursive helper carries its own fuel, spent once
per loop iteration; on success every iteration consumes at least one
token, so the fuel value `length + 1` used at every call site is always
adequate and the `fuelOut` sentinel is unreachable there.  The cycle
parse_expression -> ... -> parse_primary -> parse_expression is broken by
one top-level fuel parameter in `parseExpressionF`.  Rust's `?` on an
`IResult` is written as an explicit match on `Except`. -/

/-- The `nom::error::ErrorKind` values the parser uses, plus the fuel
sentinel. -/
inductive ErrorKind where
  | eof
  | char
  | fuelOut
deriving Repr, DecidableEq

/-- `nom::error::Error`: offending remaining input plus a kind. -/
structure ParseError where
  input : List Token
  code : ErrorKind
deriving Repr, DecidableEq

/-- `IResult<&[Token], A>`: remaining tokens and result, or an error. -/
abbrev PResult (α : Type) := Except ParseError (List Token × α)

/-- `skip_whitespace`. -/
def skipWhitespace : List Token → List Token
  | Token.whitespace :: rest => skipWhitespace rest
  | toks => toks

/-- The argument loop of `parse_function_call` (parse expression, push,
skip whitespace, then comma or closing parenthesis). -/
def parseCallArgs (pe : List Token → PResult Term) :
    Nat → List Token → String → List Term → PResult Term
  | 0, toks, _, _ => Except.error ⟨toks, ErrorKind.fuelOut⟩
  | fuel + 1, current, name, args =>
    match pe current with
    | Except.error e => Except.error e
    | Except.ok (next, arg) =>
      let args' := args ++ [arg]
      match skipWhitespace next with
      | Token.comma :: rest =>
        parseCallArgs pe fuel (skipWhitespace rest) name args'
      | Token.rparen :: rest =>
        Except.ok (rest, Term.functionCall name args')
      | current' => Except.error ⟨current', ErrorKind.char⟩

/-- `parse_function_call`. -/
def parseFunctionCall (pe : List Token → PResult Term)
    (tokens : List Token) : PResult Term :=
  match tokens with
  | [] => Except.error ⟨tokens, ErrorKind.eof⟩
  | Token.identifier name :: rest =>
    match rest with
    | Token.lparen :: rest2 =>
      let current := skipWhitespace rest2
      match current with
      | Token.rparen :: rest3 => Except.ok (rest3, Term.functionCall name [])
      | _ => parseCallArgs pe (current.length + 1) current name []
    | _ => Except.error ⟨rest, ErrorKind.char⟩
  | _ => Except.error ⟨tokens, ErrorKind.char⟩

/-- `parse_primary`, with fuel for its self-recursion on a leading
minus. -/
def parsePrimaryF (pe : List Token → PResult Term) :
    Nat → List Token → PResult Term
  | 0, toks => Except.error ⟨toks, ErrorKind.fuelOut⟩
  | fuel + 1, toks0 =>
    match skipWhitespace toks0 with
    | [] => Except.error ⟨[], ErrorKind.eof⟩
    | Token.minus :: rest =>
      match parsePrimaryF pe fuel rest with
      | Except.error e => Except.error e
      | Except.ok (r, operand) =>
        Except.ok (r, Term.unaryOp UnaryOperator.neg operand)
    | Token.integer n :: rest => Except.ok (rest, Term.integer n)
    | Token.float f :: rest => Except.ok (rest, Term.float f)
    | Token.identifier name :: rest =>
      match rest with
      | Token.lparen :: _ =>
        parseFunctionCall pe (Token.identifier name :: rest)
      | _ => Except.ok (rest, Term.identifier name)
    | Token.lparen :: rest =>
      match pe rest with
      | Except.error e => Except.error e
      | Except.ok (r1, expr) =>
        match skipWhitespace r1 with
        | Token.rparen :: r3 => Except.ok (r3, expr)
        | r2 => Except.error ⟨r2, ErrorKind.char⟩
    | toks => Except.error ⟨toks, ErrorKind.char⟩

/-- `parse_pow`: right-recursive exponentiation, with fuel for the
self-recursion. -/
def parsePowF (pr : List Token → PResult Term) :
    Nat → List Token → PResult Term
  | 0, toks => Except.error ⟨toks, ErrorKind.fuelOut⟩
  | fuel + 1, toks =>
    match pr toks with
    | Except.error e => Except.error e
    | Except.ok (rest, left) =>
      match rest with
      | Token.pow :: rest2 =>
        match parsePowF pr fuel rest2 with
        | Except.error e => Except.error e
        | Except.ok (r, right) =>
          Except.ok (r, Term.binaryOp BinaryOperator.pow left right)
      | _ => Except.ok (rest, left)

/-- `parse_unary`: skip whitespace; a leading minus negates an operand
parsed at exponent precedence (`parse_pow`), anything else goes straight
to `parse_pow`. -/
def parseUnaryW (pp : List Token → PResult Term)
    (tokens : List Token) : PResult Term :=
  match skipWhitespace tokens with
  | [] => Except.error ⟨[], ErrorKind.eof⟩
  | Token.minus :: rest =>
    match pp rest with
    | Except.error e => Except.error e
    | Except.ok (r, operand) =>
      Except.ok (r, Term.unaryOp UnaryOperator.neg operand)
  | toks => pp toks

/-- The `while let` loop of `parse_mul_div`: fold `*` and `/` leftward,
skipping whitespace tokens; each right operand is parsed by
`parse_pow`. -/
def parseMulDivLoop (pp : List Token → PResult Term) :
    Nat → List Token → Term → PResult Term
  | 0, toks, _ => Except.error ⟨toks, ErrorKind.fuelOut⟩
  | fuel + 1, rest, left =>
    match rest with
    | Token.times :: rest2 =>
      match pp rest2 with
      | Except.error e => Except.error e
      | Except.ok (r, right) =>
        parseMulDivLoop pp fuel r (Term.binaryOp BinaryOperator.times left right)
    | Token.div :: rest2 =>
      match pp rest2 with
      | Except.error e => Except.error e
      | Except.ok (r, right) =>
        parseMulDivLoop pp fuel r (Term.binaryOp BinaryOperator.div left right)
    | Token.whitespace :: rest2 => parseMulDivLoop pp fuel rest2 left
    | _ => Except.ok (rest, left)

/-- `parse_mul_div`: left operand from `parse_unary`, then the loop. -/
def parseMulDiv (pu pp : List Token → PResult Term)
    (tokens : List Token) : PResult Term :=
  match pu tokens with
  | Except.error e => Except.error e
  | Except.ok (rest, left) => parseMulDivLoop pp (rest.length + 1) rest left

/-- The `while let` loop of `parse_add_sub`: fold `+` and `-` leftward,
skipping whitespace tokens; each right operand is parsed by
`parse_mul_div`. -/
def parseAddSubLoop (pmd : List Token → PResult Term) :
    Nat → List Token → Term → PResult Term
  | 0, toks, _ => Except.error ⟨toks, ErrorKind.fuelOut⟩
  | fuel + 1, rest, left =>
    match rest with
    | Token.plus :: rest2 =>
      match pmd rest2 with
      | Except.error e => Except.error e
      | Except.ok (r, right) =>
        parseAddSubLoop pmd fuel r (Term.binaryOp BinaryOperator.plus left right)
    | Token.minus :: rest2 =>
      match pmd rest2 with
      | Except.error e => Except.error e
      | Except.ok (r, right) =>
        parseAddSubLoop pmd fuel r (Term.binaryOp BinaryOperator.minus left right)
    | Token.whitespace :: rest2 => parseAddSubLoop pmd fuel rest2 left
    | _ => Except.ok (rest, left)

/-- `parse_expression` (= `parse_add_sub` at the top), fuel-indexed over
the parenthesis/call nesting depth. -/
def parseExpressionF : Nat → List Token → PResult Term
  | 0, toks => Except.error ⟨toks, ErrorKind.fuelOut⟩
  | fuel + 1, tokens =>
    let pe := parseExpressionF fuel
    let pr := fun ts => parsePrimaryF pe (ts.length + 1) ts
    let pp := fun ts => parsePowF pr (ts.length + 1) ts
    let pu := parseUnaryW pp
    let pmd := parseMulDiv pu pp
    match pmd tokens with
    | Except.error e => Except.error e
    | Except.ok (rest, left) => parseAddSubLoop pmd (rest.length + 1) rest left

/-- `parse(tokens: &[Token]) -> IResult<&[Token], Term>`. -/
def parse (tokens : List Token) : PResult Term :=
  parseExpressionF (tokens.length + 1) tokens

/-! ### Concrete environments used as witnesses -/

/-- A caller environment binding a function f(a) = y and a top-level
value for the free name y. -/
def envY : Env :=
  (Env.new.bind "f" (Value.function ["a"] (Term.identifier "y"))).bind
    "y" (Value.integer 7)

/-- The child environment a call f(5) builds from `envY`. -/
def calleeY : Env :=
  Env.mk [("a", Value.integer 5)] (some envY) Env.new.rules

/-- A caller environment binding a function f(a) = missing whose body
names an unbound identifier. -/
def envM : Env :=
  Env.new.bind "f" (Value.function ["a"] (Term.identifier "missing"))

/-- The child environment a call f(5) builds from `envM`. -/
def calleeM : Env :=
  Env.mk [("a", Value.integer 5)] (some envM) Env.new.rules

/-- A caller environment binding a two-parameter function f(a, b) = 0. -/
def envF9 : Env :=
  Env.new.bind "f" (Value.function ["a", "b"] (Term.integer 0))

/-- `envF9` after the side effect of evaluating the argument expression
(g() := 1): the definition of g persists in the caller environment. -/
def envF9g : Env :=
  envF9.bind "g" (Value.function [] (Term.integer 1))

/-! ## Theorems -/

/-- Claim C6: exponentiation is right-associative.  Tokenizing
2^3^2 and parsing yields Pow(2, Pow(3, 2)) with no tokens left, and
interpreting that AST in a fresh environment evaluates to the integer
512 (not 64). -/
theorem C6_pow_right_assoc :
    tokenize "2^3^2" =
      some [Token.integer 2, Token.pow, Token.integer 3, Token.pow,
        Token.integer 2]
    ∧ parse [Token.integer 2, Token.pow, Token.integer 3, Token.pow,
        Token.integer 2] =
      Except.ok ([], Term.binaryOp BinaryOperator.pow (Term.integer 2)
        (Term.binaryOp BinaryOperator.pow (Term.integer 3) (Term.integer 2)))
    ∧ interpret 4 (Term.binaryOp BinaryOperator.pow (Term.integer 2)
        (Term.binaryOp BinaryOperator.pow (Term.integer 3) (Term.integer 2)))
        Env.new =
      Outcome.ok (Value.integer 512) Env.new := by
  exact ⟨rfl, rfl, rfl⟩

/-- Claim C7: unary minus binds weaker than exponentiation.  Tokenizing
-2^2 and parsing yields Neg(Pow(2, 2)), and interpreting that AST
evaluates to the integer -4. -/
theorem C7_neg_weaker_than_pow :
    tokenize "-2^2" =
      some [Token.minus, Token.integer 2, Token.pow, Token.integer 2]
    ∧ parse [Token.minus, Token.integer 2, Token.pow, Token.integer 2] =
      Except.ok ([], Term.unaryOp UnaryOperator.neg
        (Term.binaryOp BinaryOperator.pow (Term.integer 2) (Term.integer 2)))
    ∧ interpret 4 (Term.unaryOp UnaryOperator.neg
        (Term.binaryOp BinaryOperator.pow (Term.integer 2) (Term.integer 2)))
        Env.new =
      Outcome.ok (Value.integer (-4)) Env.new := by
  exact ⟨rfl, rfl, rfl⟩

/-- Claim C8: multiplication binds tighter than addition and parentheses
reset precedence.  Tokenizing then parsing the two sample inputs yields
Plus(2, Times(3, 4)) and Times(Plus(1, 2), 3) respectively (the parser
skips the interspersed whitespace tokens itself). -/
theorem C8_precedence_and_parens :
    tokenize "2 + 3 * 4" =
      some [Token.integer 2, Token.whitespace, Token.plus, Token.whitespace,
        Token.integer 3, Token.whitespace, Token.times, Token.whitespace,
        Token.integer 4]
    ∧ parse [Token.integer 2, Token.whitespace, Token.plus, Token.whitespace,
        Token.integer 3, Token.whitespace, Token.times, Token.whitespace,
        Token.integer 4] =
      Except.ok ([], Term.binaryOp BinaryOperator.plus (Term.integer 2)
        (Term.binaryOp BinaryOperator.times (Term.integer 3) (Term.integer 4)))
    ∧ tokenize "(1 + 2) * 3" =
      some [Token.lparen, Token.integer 1, Token.whitespace, Token.plus,
        Token.whitespace, Token.integer 2, Token.rparen, Token.whitespace,
        Token.times, Token.whitespace, Token.integer 3]
    ∧ parse [Token.lparen, Token.integer 1, Token.whitespace, Token.plus,
        Token.whitespace, Token.integer 2, Token.rparen, Token.whitespace,
        Token.times, Token.whitespace, Token.integer 3] =
      Except.ok ([], Term.binaryOp BinaryOperator.times
        (Term.binaryOp BinaryOperator.plus (Term.integer 1) (Term.integer 2))
        (Term.integer 3)) := by
  exact ⟨rfl, rfl, rfl, rfl⟩

/-- Claim C10: with whitespace tokens not filtered out, a Whitespace
token immediately before a Pow token stops exponent parsing.  Parsing the
raw token sequence of 2 ^ 3 succeeds with AST Integer(2), leaving the
Pow token, the following Whitespace token and Integer(3) unconsumed. -/
theorem C10_whitespace_blocks_pow :
    tokenize "2 ^ 3" =
      some [Token.integer 2, Token.whitespace, Token.pow, Token.whitespace,
        Token.integer 3]
    ∧ parse [Token.integer 2, Token.whitespace, Token.pow, Token.whitespace,
        Token.integer 3] =
      Except.ok ([Token.pow, Token.whitespace, Token.integer 3],
        Term.integer 2) := by
  exact ⟨rfl, rfl⟩

/-! ### Helper lemmas about the interpreter -/

theorem interpret_succ (fuel : Nat) (t : Term) (env : Env) :
    interpret (fuel + 1) t env = interpretCore (interpret fuel) t env := rfl

theorem Env.bind_parentOf (e : Env) (n : String) (v : Value) :
    (e.bind n v).parentOf = e.parentOf := by
  cases e; rfl

theorem Env.bind_rules (e : Env) (n : String) (v : Value) :
    (e.bind n v).rules = e.rules := by
  cases e; rfl

theorem Env.bind_lookupCur_ne (e : Env) (n x : String) (v : Value)
    (h : n ≠ x) : (e.bind n v).lookupCur x = e.lookupCur x := by
  cases e with
  | mk cur par rules =>
    have hb : (n == x) = false := beq_eq_false_iff_ne.mpr h
    simp [Env.bind, Env.lookupCur, Env.current, List.find?, hb]

/-- If a name misses the current scope of a child environment, lookup
continues in the parent. -/
theorem Env.lookup_of_lookupCur_none (cur : List (String × Value))
    (p : Env) (rules : List SynRule) (x : String)
    (h : (Env.mk cur (some p) rules).lookupCur x = none) :
    (Env.mk cur (some p) rules).lookup x = p.lookup x := by
  simp only [Env.lookupCur, Env.current] at h
  simp only [Env.lookup, h]

/-- The argument loop only conses bindings for the zipped parameter
names onto the child environment: parent, rules and all other
current-scope lookups are those of the initial child environment. -/
theorem bindArgsWith_ok_shape (rec : Term → Env → Outcome)
    (l : List (String × Term)) :
    ∀ env acc envA callee : Env,
      bindArgsWith rec l env acc = ArgsOut.ok envA callee →
      callee.parentOf = acc.parentOf ∧ callee.rules = acc.rules ∧
        ∀ x : String, (∀ pa ∈ l, pa.1 ≠ x) →
          callee.lookupCur x = acc.lookupCur x := by
  induction l with
  | nil =>
    intro env acc envA callee h
    simp only [bindArgsWith] at h
    cases h
    exact ⟨rfl, rfl, fun _ _ => rfl⟩
  | cons pa rest ih =>
    intro env acc envA callee h
    obtain ⟨p, a⟩ := pa
    simp only [bindArgsWith] at h
    cases hra : rec a env with
    | ok v env' =>
      rw [hra] at h
      obtain ⟨h1, h2, h3⟩ := ih env' (acc.bind p v) envA callee h
      refine ⟨h1.trans (Env.bind_parentOf acc p v),
        h2.trans (Env.bind_rules acc p v), fun x hx => ?_⟩
      have hpx : p ≠ x := by
        have := hx (p, a) (List.mem_cons_self _ _)
        simpa using this
      rw [h3 x fun q hq => hx q (List.mem_cons_of_mem _ hq)]
      exact Env.bind_lookupCur_ne acc p x v hpx
    | err e env' => rw [hra] at h; cases h
    | abort => rw [hra] at h; cases h
    | nofuel => rw [hra] at h; cases h

/-- Unfolding of a user-function call whose argument loop succeeds: the
body runs in the populated child environment and, whatever the outcome,
the interpreter environment reverts to the caller environment saved at
the swap. -/
theorem interpret_call_ok (fuel : Nat) (name : String) (args : List Term)
    (env envA callee : Env) (params : List String) (body : Term)
    (hlk : env.lookup name = some (Value.function params body))
    (hlen : params.length = args.length)
    (hargs : bindArgsWith (interpret fuel) (params.zip args) env
      (Env.mk [] (some env) env.rules) = ArgsOut.ok envA callee) :
    interpret (fuel + 1) (Term.functionCall name args) env =
      restoreWith envA (interpret fuel body callee) := by
  rw [interpret_succ]
  simp only [interpretCore, hlk, hlen, bne_self_eq_false, Bool.false_eq_true,
    if_false, hargs]
  cases interpret fuel body callee <;> rfl

/-- Unfolding of a user-function call one of whose arguments fails: the
argument error is returned unchanged, the child environment is
discarded, and the interpreter environment is the caller environment as
left by the argument evaluations already performed. -/
theorem interpret_call_argerr (fuel : Nat) (name : String)
    (args : List Term) (env envA : Env) (params : List String)
    (body : Term) (e : String)
    (hlk : env.lookup name = some (Value.function params body))
    (hlen : params.length = args.length)
    (hargs : bindArgsWith (interpret fuel) (params.zip args) env
      (Env.mk [] (some env) env.rules) = ArgsOut.err e envA) :
    interpret (fuel + 1) (Term.functionCall name args) env =
      Outcome.err e envA := by
  rw [interpret_succ]
  simp only [interpretCore, hlk, hlen, bne_self_eq_false, Bool.false_eq_true,
    if_false, hargs]

/-- Truncating `i64` division stays in range for every divisor except
the single overflowing pair `(i64::MIN, -1)`. -/
theorem tdiv_in_i64_range (a b : Int)
    (ha1 : i64min ≤ a) (ha2 : a ≤ i64max)
    (hb0 : b ≠ 0) (hnot : ¬(a = i64min ∧ b = -1)) :
    i64min ≤ Int.tdiv a b ∧ Int.tdiv a b ≤ i64max := by
  simp only [i64min, i64max] at *
  have hA : (a.natAbs : Int) ≤ 2 ^ 63 := by
    rcases Int.natAbs_eq a with h | h <;> omega
  have hAn : a.natAbs ≤ 2 ^ 63 := by exact_mod_cast hA
  have hq : (Int.tdiv a b).natAbs = a.natAbs / b.natAbs := Int.natAbs_tdiv a b
  have hqA : (Int.tdiv a b).natAbs ≤ a.natAbs := by
    rw [hq]; exact Nat.div_le_self _ _
  have hqcast : ((Int.tdiv a b).natAbs : Int) ≤ (a.natAbs : Int) := by
    exact_mod_cast hqA
  constructor
  · rcases Int.natAbs_eq (Int.tdiv a b) with h | h <;> omega
  · by_cases h1 : b.natAbs = 1
    · have hb : b = 1 ∨ b = -1 := by
        rcases Int.natAbs_eq b with h | h <;> rw [h1] at h <;> omega
      rcases hb with hb | hb
      · subst hb
        simp only [Int.tdiv_one]
        exact ha2
      · subst hb
        have htd : Int.tdiv a (-1) = -a := by
          rw [show ((-1 : ℤ)) = -(1 : ℤ) from rfl, Int.tdiv_neg, Int.tdiv_one]
        have hne : ¬a = -(2 ^ 63) := fun h => hnot ⟨h, rfl⟩
        rw [htd]; omega
    · have hbn0 : b.natAbs ≠ 0 := fun h => hb0 (Int.natAbs_eq_zero.mp h)
      have h2 : 2 ≤ b.natAbs := by omega
      have hd1 : a.natAbs / b.natAbs ≤ a.natAbs / 2 :=
        Nat.div_le_div_left h2 (by omega)
      have hd2 : a.natAbs / 2 ≤ 2 ^ 63 / 2 := Nat.div_le_div_right hAn
      have hd3 : (2 : Nat) ^ 63 / 2 = 2 ^ 62 := by norm_num
      have hfin : (Int.tdiv a b).natAbs ≤ 2 ^ 62 := by
        rw [hq]; omega
      have hfinc : ((Int.tdiv a b).natAbs : Int) ≤ 2 ^ 62 := by
        exact_mod_cast hfin
      rcases Int.natAbs_eq (Int.tdiv a b) with h | h <;> omega

/-- Claim C1: every user-defined function call builds a child
environment whose parent is the caller's current environment at the call
site (not the definition site); a free identifier of the body (any name
other than the call's parameters) therefore resolves to the binding
visible in the caller's environment, and a function value carries no
closure environment (interpreting a definition yields the bare
params/body value whatever the defining environment was). -/
theorem C1_dynamic_scoping (fuel : Nat) (name x : String)
    (args : List Term) (env envA callee envD : Env)
    (params : List String) (body : Term)
    (hlk : env.lookup name = some (Value.function params body))
    (hlen : params.length = args.length)
    (hargs : bindArgsWith (interpret fuel) (params.zip args) env
      (Env.mk [] (some env) env.rules) = ArgsOut.ok envA callee)
    (hx : x ∉ params) :
    interpret (fuel + 1) (Term.function name params body) envD =
      Outcome.ok (Value.function params body)
        (envD.bind name (Value.function params body))
    ∧ callee.parentOf = some env
    ∧ callee.lookup x = env.lookup x
    ∧ interpret (fuel + 1) (Term.functionCall name args) env =
      restoreWith envA (interpret fuel body callee) := by
  obtain ⟨hp, hr, hcur⟩ := bindArgsWith_ok_shape (interpret fuel)
    (params.zip args) env (Env.mk [] (some env) env.rules) envA callee hargs
  have hparent : callee.parentOf = some env := by rw [hp]; rfl
  have hxz : ∀ pa ∈ params.zip args, pa.1 ≠ x := by
    intro pa hpa
    obtain ⟨h1, _⟩ := List.of_mem_zip hpa
    exact fun he => hx (he ▸ h1)
  have hcurx : callee.lookupCur x = none := by rw [hcur x hxz]; rfl
  have hlookup : callee.lookup x = env.lookup x := by
    cases callee with
    | mk cur par rules =>
      simp only [Env.parentOf] at hparent
      subst hparent
      exact Env.lookup_of_lookupCur_none cur env rules x hcurx
  exact ⟨rfl, hparent, hlookup,
    interpret_call_ok fuel name args env envA callee params body hlk hlen
      hargs⟩

/-- Witness for C1 at a concrete call: in `envY` (f(a) = y with y bound
to 7 at the caller), calling f(5) builds a child whose parent is `envY`,
the free name y resolves through the caller to 7, and the call evaluates
to 7. -/
theorem C1_dynamic_scoping_witness :
    ("y" ∉ ["a"]
    ∧ envY.lookup "f" =
        some (Value.function ["a"] (Term.identifier "y")))
    ∧ (interpret 2 (Term.function "f" ["a"] (Term.identifier "y")) Env.new =
        Outcome.ok (Value.function ["a"] (Term.identifier "y"))
          (Env.new.bind "f" (Value.function ["a"] (Term.identifier "y")))
      ∧ calleeY.parentOf = some envY
      ∧ calleeY.lookup "y" = envY.lookup "y"
      ∧ interpret 2 (Term.functionCall "f" [Term.integer 5]) envY =
          restoreWith envY (interpret 1 (Term.identifier "y") calleeY))
    ∧ calleeY.lookup "y" = some (Value.integer 7)
    ∧ interpret 2 (Term.functionCall "f" [Term.integer 5]) envY =
        Outcome.ok (Value.integer 7) envY :=
  ⟨⟨by decide, rfl⟩,
    C1_dynamic_scoping 1 "f" "y" [Term.integer 5] envY envY calleeY Env.new
      ["a"] (Term.identifier "y") rfl rfl rfl (by decide),
    rfl, rfl⟩

/-- Claim C2: when every argument of a user-defined call evaluates
successfully, the interpreter's active environment after the body
evaluation is restored to the caller environment saved at the swap on
every outcome (`restoreWith` maps both the ok and the err result of the
body to that saved environment), so a failing body cannot corrupt the
interpreter state seen by subsequent evaluations. -/
theorem C2_env_restored_on_all_paths (fuel : Nat) (name : String)
    (args : List Term) (env envA callee : Env) (params : List String)
    (body : Term)
    (hlk : env.lookup name = some (Value.function params body))
    (hlen : params.length = args.length)
    (hargs : bindArgsWith (interpret fuel) (params.zip args) env
      (Env.mk [] (some env) env.rules) = ArgsOut.ok envA callee) :
    interpret (fuel + 1) (Term.functionCall name args) env =
      restoreWith envA (interpret fuel body callee) :=
  interpret_call_ok fuel name args env envA callee params body hlk hlen hargs

/-- Witness for C2 at a concrete erroring call: in `envM` (f(a) refers
to the unbound name missing), calling f(5) returns the body's error with
the active environment restored to the caller environment `envM`. -/
theorem C2_env_restored_on_all_paths_witness :
    (envM.lookup "f" =
        some (Value.function ["a"] (Term.identifier "missing"))
    ∧ interpret 2 (Term.functionCall "f" [Term.integer 5]) envM =
        restoreWith envM (interpret 1 (Term.identifier "missing") calleeM))
    ∧ interpret 2 (Term.functionCall "f" [Term.integer 5]) envM =
        Outcome.err "Undefined variable: missing" envM :=
  ⟨⟨rfl,
    C2_env_restored_on_all_paths 1 "f" [Term.integer 5] envM envM calleeM
      ["a"] (Term.identifier "missing") rfl rfl rfl⟩,
    rfl⟩

/-- Claim C9 (amended): the first error encountered aborts the current
evaluation unit and is returned to the caller unchanged.  If an argument
of a user-function call fails, the call is aborted: the child
environment (and any parameter bindings placed in it) is discarded and
the active environment is the caller's environment as left by the
argument evaluations already performed — identical to the pre-call
environment whenever those evaluations had no binding side effects.
Likewise a failing left operand aborts a binary operation with the error
unchanged. -/
theorem C9_first_error_aborts (fuel : Nat) (name : String)
    (args : List Term) (env envA env1 env2 : Env)
    (params : List String) (body l r : Term) (op : BinaryOperator)
    (e e1 : String)
    (hlk : env.lookup name = some (Value.function params body))
    (hlen : params.length = args.length)
    (hargs : bindArgsWith (interpret fuel) (params.zip args) env
      (Env.mk [] (some env) env.rules) = ArgsOut.err e envA)
    (hl : interpret fuel l env1 = Outcome.err e1 env2) :
    interpret (fuel + 1) (Term.functionCall name args) env =
      Outcome.err e envA
    ∧ interpret (fuel + 1) (Term.binaryOp op l r) env1 =
      Outcome.err e1 env2 := by
  refine ⟨interpret_call_argerr fuel name args env envA params body e hlk
    hlen hargs, ?_⟩
  rw [interpret_succ]
  simp only [interpretCore, hl]

/-- Witness for the amended C9 at a concrete call: in `envF9`, the call
f(g() := 1, nope) fails on its second argument; the error is returned
unchanged and the active environment is `envF9g` (the caller environment
carrying the side effect of the first argument). -/
theorem C9_first_error_aborts_witness :
    (envF9.lookup "f" = some (Value.function ["a", "b"] (Term.integer 0))
    ∧ interpret 1 (Term.identifier "zz") Env.new =
        Outcome.err "Undefined variable: zz" Env.new)
    ∧ (interpret 2 (Term.functionCall "f"
          [Term.function "g" [] (Term.integer 1), Term.identifier "nope"])
          envF9 =
        Outcome.err "Undefined variable: nope" envF9g
      ∧ interpret 2 (Term.binaryOp BinaryOperator.plus
          (Term.identifier "zz") (Term.integer 1)) Env.new =
        Outcome.err "Undefined variable: zz" Env.new) :=
  ⟨⟨rfl, rfl⟩,
    C9_first_error_aborts 1 "f"
      [Term.function "g" [] (Term.integer 1), Term.identifier "nope"]
      envF9 envF9g Env.new Env.new ["a", "b"] (Term.integer 0)
      (Term.identifier "zz") (Term.integer 1) BinaryOperator.plus
      "Undefined variable: nope" "Undefined variable: zz" rfl rfl rfl rfl⟩

/-- Counterexample to C9 as stated: when the failing argument is
preceded by an argument whose evaluation has a binding side effect, the
active environment after the aborted call is NOT the environment from
before the call.  Calling f(g() := 1, nope) in `envF9` fails on the
second argument, yet leaves g bound in the active environment (`envF9`
had no binding for g, the resulting environment `envF9g` has one). -/
theorem C9_counterexample :
    interpret 3 (Term.functionCall "f"
        [Term.function "g" [] (Term.integer 1), Term.identifier "nope"])
        envF9 =
      Outcome.err "Undefined variable: nope" envF9g
    ∧ envF9.lookup "g" = none
    ∧ envF9g.lookup "g" = some (Value.function [] (Term.integer 1)) :=
  ⟨rfl, rfl, rfl⟩

/-- Claim C4 (amended): for `i64` integers a, b with b nonzero and
excluding the single pair (i64::MIN, -1) — where Rust's `l / r`
unconditionally panics with a division overflow — interpreting a / b
yields the integer quotient truncated toward zero; and for any integer
or float dividend, dividing by integer 0 or float 0.0 yields the
DivisionByZero error (the zero test precedes the operation, so no panic
is possible on that path). -/
theorem C4_div_truncates_and_zero_errors (a b : Int) (q : ℚ) (env : Env)
    (fuel : Nat) (ha1 : i64min ≤ a) (ha2 : a ≤ i64max)
    (hb : b ≠ 0) (hnot : ¬(a = i64min ∧ b = -1)) :
    interpret (fuel + 2) (Term.binaryOp BinaryOperator.div (Term.integer a)
        (Term.integer b)) env = Outcome.ok (Value.integer (Int.tdiv a b)) env
    ∧ interpret (fuel + 2) (Term.binaryOp BinaryOperator.div (Term.integer a)
        (Term.integer 0)) env = Outcome.err "Division by zero" env
    ∧ interpret (fuel + 2) (Term.binaryOp BinaryOperator.div (Term.float q)
        (Term.integer 0)) env = Outcome.err "Division by zero" env
    ∧ interpret (fuel + 2) (Term.binaryOp BinaryOperator.div (Term.integer a)
        (Term.float 0)) env = Outcome.err "Division by zero" env
    ∧ interpret (fuel + 2) (Term.binaryOp BinaryOperator.div (Term.float q)
        (Term.float 0)) env = Outcome.err "Division by zero" env := by
  have hrange := tdiv_in_i64_range a b ha1 ha2 hb hnot
  refine ⟨?_, ?_, ?_, ?_, ?_⟩
  · rw [interpret_succ]
    simp only [interpret_succ, interpretCore, applyBinaryOp, applyIntOp,
      if_neg hb, chkInt, i64chk, if_pos hrange, liftOp]
  · rw [interpret_succ]
    simp only [interpret_succ, interpretCore, applyBinaryOp, applyIntOp,
      if_pos rfl, if_true, liftOp]
  · rw [interpret_succ]
    simp only [interpret_succ, interpretCore, applyBinaryOp, applyFloatOp,
      Int.cast_zero, if_pos rfl, if_true, liftOp]
  · rw [interpret_succ]
    simp only [interpret_succ, interpretCore, applyBinaryOp, applyFloatOp,
      if_pos rfl, if_true, liftOp]
  · rw [interpret_succ]
    simp only [interpret_succ, interpretCore, applyBinaryOp, applyFloatOp,
      if_pos rfl, if_true, liftOp]

/-- Witness for the amended C4 at a = 7, b = -2 (truncation toward zero
gives -3, not the floor -4) and at concrete zero divisors. -/
theorem C4_div_truncates_and_zero_errors_witness :
    ((-2 : Int) ≠ 0 ∧ ¬((7 : Int) = i64min ∧ (-2 : Int) = -1)
    ∧ Int.tdiv 7 (-2) = -3)
    ∧ (interpret 2 (Term.binaryOp BinaryOperator.div (Term.integer 7)
          (Term.integer (-2))) Env.new =
        Outcome.ok (Value.integer (Int.tdiv 7 (-2))) Env.new
      ∧ interpret 2 (Term.binaryOp BinaryOperator.div (Term.integer 7)
          (Term.integer 0)) Env.new =
        Outcome.err "Division by zero" Env.new
      ∧ interpret 2 (Term.binaryOp BinaryOperator.div
          (Term.float (5 / 2)) (Term.integer 0)) Env.new =
        Outcome.err "Division by zero" Env.new
      ∧ interpret 2 (Term.binaryOp BinaryOperator.div (Term.integer 7)
          (Term.float 0)) Env.new =
        Outcome.err "Division by zero" Env.new
      ∧ interpret 2 (Term.binaryOp BinaryOperator.div
          (Term.float (5 / 2)) (Term.float 0)) Env.new =
        Outcome.err "Division by zero" Env.new) :=
  ⟨⟨by decide, by decide, by decide⟩,
    C4_div_truncates_and_zero_errors 7 (-2) (5 / 2) Env.new 0 (by decide)
      (by decide) (by decide) (by decide)⟩

/-- Counterexample to C4 as stated: at a = i64::MIN and b = -1 the
quotient 2^63 does not fit in i64, so the Rust division panics
(modelled by `abort`) instead of returning the truncated quotient. -/
theorem C4_counterexample :
    interpret 2 (Term.binaryOp BinaryOperator.div
        (Term.integer (-(2 ^ 63))) (Term.integer (-1))) Env.new =
      Outcome.abort
    ∧ interpret 2 (Term.binaryOp BinaryOperator.div
        (Term.integer (-(2 ^ 63))) (Term.integer (-1))) Env.new ≠
      Outcome.ok (Value.integer (Int.tdiv (-(2 ^ 63)) (-1))) Env.new :=
  ⟨rfl, fun h => nomatch h⟩

/-- Claim C5 (amended): for integer base l and integer exponent r, if
0 ≤ r ≤ 20 and the exact power fits in i64, the interpreter returns the
exact integer power as an Integer value (when the power overflows i64,
the checked `i64::pow` panics under debug assertions instead of
returning the exact value); if r < 0 or r > 20 it falls back to
floating-point power and returns a Float value; and a float exponent
always uses floating-point power and returns a Float, for both integer
and float bases. -/
theorem C5_pow_branches (l r rn rb : Int) (q qb : ℚ) (env : Env)
    (fuel : Nat) (h0 : 0 ≤ r) (h20 : r ≤ 20)
    (hfit1 : i64min ≤ l ^ r.toNat) (hfit2 : l ^ r.toNat ≤ i64max)
    (hn : rn < 0) (hbig : 20 < rb) :
    interpret (fuel + 2) (Term.binaryOp BinaryOperator.pow (Term.integer l)
        (Term.integer r)) env =
      Outcome.ok (Value.integer (l ^ r.toNat)) env
    ∧ interpret (fuel + 2) (Term.binaryOp BinaryOperator.pow (Term.integer l)
        (Term.integer rn)) env =
      Outcome.ok (Value.float (powfQ (l : ℚ) (rn : ℚ))) env
    ∧ interpret (fuel + 2) (Term.binaryOp BinaryOperator.pow (Term.integer l)
        (Term.integer rb)) env =
      Outcome.ok (Value.float (powfQ (l : ℚ) (rb : ℚ))) env
    ∧ interpret (fuel + 2) (Term.binaryOp BinaryOperator.pow (Term.integer l)
        (Term.float q)) env =
      Outcome.ok (Value.float (powfQ (l : ℚ) q)) env
    ∧ interpret (fuel + 2) (Term.binaryOp BinaryOperator.pow (Term.float qb)
        (Term.float q)) env =
      Outcome.ok (Value.float (powfQ qb q)) env := by
  have hnn : ¬r < 0 := not_lt.mpr h0
  have hnb : ¬r > 20 := not_lt.mpr h20
  have hrbn : ¬rb < 0 := by omega
  have hfit : i64min ≤ l ^ r.toNat ∧ l ^ r.toNat ≤ i64max := ⟨hfit1, hfit2⟩
  refine ⟨?_, ?_, ?_, ?_, ?_⟩
  · rw [interpret_succ]
    simp only [interpret_succ, interpretCore, applyBinaryOp, applyIntOp,
      if_neg hnn, if_neg hnb, chkInt, i64chk, if_pos hfit, liftOp]
  · rw [interpret_succ]
    simp only [interpret_succ, interpretCore, applyBinaryOp, applyIntOp,
      if_pos hn, liftOp]
  · rw [interpret_succ]
    simp only [interpret_succ, interpretCore, applyBinaryOp, applyIntOp,
      if_neg hrbn, if_pos hbig, liftOp]
  · rw [interpret_succ]
    simp only [interpret_succ, interpretCore, applyBinaryOp, applyFloatOp,
      liftOp]
  · rw [interpret_succ]
    simp only [interpret_succ, interpretCore, applyBinaryOp, applyFloatOp,
      liftOp]

/-- Witness for the amended C5 at base 3: exponent 4 gives the exact
Integer 81, exponent -1 and exponent 21 fall back to Float, and float
exponent 1/2 yields Float for both an integer and a float base. -/
theorem C5_pow_branches_witness :
    ((0 : Int) ≤ 4 ∧ (4 : Int) ≤ 20 ∧ (-1 : Int) < 0 ∧ (20 : Int) < 21
    ∧ (3 : Int) ^ (4 : Int).toNat = 81)
    ∧ (interpret 2 (Term.binaryOp BinaryOperator.pow (Term.integer 3)
          (Term.integer 4)) Env.new =
        Outcome.ok (Value.integer ((3 : Int) ^ (4 : Int).toNat)) Env.new
      ∧ interpret 2 (Term.binaryOp BinaryOperator.pow (Term.integer 3)
          (Term.integer (-1))) Env.new =
        Outcome.ok (Value.float (powfQ ((3 : Int) : ℚ) (((-1) : Int) : ℚ)))
          Env.new
      ∧ interpret 2 (Term.binaryOp BinaryOperator.pow (Term.integer 3)
          (Term.integer 21)) Env.new =
        Outcome.ok (Value.float (powfQ ((3 : Int) : ℚ) ((21 : Int) : ℚ)))
          Env.new
      ∧ interpret 2 (Term.binaryOp BinaryOperator.pow (Term.integer 3)
          (Term.float (1 / 2))) Env.new =
        Outcome.ok (Value.float (powfQ ((3 : Int) : ℚ) (1 / 2))) Env.new
      ∧ interpret 2 (Term.binaryOp BinaryOperator.pow (Term.float (3 / 2))
          (Term.float (1 / 2))) Env.new =
        Outcome.ok (Value.float (powfQ (3 / 2) (1 / 2))) Env.new) :=
  ⟨⟨by decide, by decide, by decide, by decide, by decide⟩,
    C5_pow_branches 3 4 (-1) 21 (1 / 2) (3 / 2) Env.new 0 (by decide)
      (by decide) (by decide) (by decide) (by decide) (by decide)⟩

/-- Counterexample to C5 as stated: 10^20 has exponent within 0..20 but
its exact value exceeds i64::MAX, so the checked integer power panics
(modelled by `abort`) instead of returning the exact Integer. -/
theorem C5_counterexample :
    interpret 2 (Term.binaryOp BinaryOperator.pow (Term.integer 10)
        (Term.integer 20)) Env.new = Outcome.abort
    ∧ interpret 2 (Term.binaryOp BinaryOperator.pow (Term.integer 10)
        (Term.integer 20)) Env.new ≠
      Outcome.ok (Value.integer (10 ^ 20)) Env.new :=
  ⟨rfl, fun h => nomatch h⟩

theorem dropWhile_length_le {α : Type} (p : α → Bool) (l : List α) :
    (l.dropWhile p).length ≤ l.length := by
  induction l with
  | nil => simp [List.dropWhile]
  | cons c cs ih =>
    cases hp : p c <;> simp [List.dropWhile, hp]
    exact Nat.le_succ_of_le ih

/-- The tokenizer succeeds exactly when every number run it encounters
survives its literal parse: dotted runs must be valid float literals,
dotless runs must fit in `i64`. -/
theorem tokenizeF_isSome_iff (fuel : Nat) :
    ∀ l : List Char, l.length ≤ fuel →
      ((tokenizeF fuel l).isSome ↔ ∀ r ∈ numRunsF fuel l, goodRun r) := by
  induction fuel with
  | zero =>
    intro l hl
    have hnil : l = [] := List.length_eq_zero.mp (Nat.le_zero.mp hl)
    subst hnil
    simp [tokenizeF, numRunsF]
  | succ fuel ih =>
    intro l hl
    cases l with
    | nil => simp [tokenizeF, numRunsF]
    | cons c cs =>
      have hcs : cs.length ≤ fuel := by
        simp only [List.length_cons] at hl; omega
      cases hst : singleTok c with
      | some t =>
        simp only [tokenizeF, numRunsF, hst, Option.isSome_map']
        exact ih cs hcs
      | none =>
        by_cases hnum : numCont c
        · have hrest : (cs.dropWhile numCont).length ≤ fuel :=
            le_trans (dropWhile_length_le numCont cs) hcs
          by_cases hdot : (c :: cs.takeWhile numCont).contains '.'
          · cases hq : parseF64 (c :: cs.takeWhile numCont) with
            | some qv =>
              simp only [tokenizeF, numRunsF, hst, hnum, hdot, hq, if_true,
                Option.isSome_map', List.forall_mem_cons, goodRun,
                Option.isSome_some, true_and]
              exact ih _ hrest
            | none =>
              simp only [tokenizeF, numRunsF, hst, hnum, hdot, hq, if_true,
                Option.isSome_none, List.forall_mem_cons, goodRun,
                Bool.false_eq_true, false_iff, not_and]
              intro hfalse
              cases hfalse
          · cases hq : parseI64 (c :: cs.takeWhile numCont) with
            | some n =>
              simp only [tokenizeF, numRunsF, hst, hnum, hdot, hq,
                Bool.false_eq_true, if_false, if_true, Option.isSome_map',
                List.forall_mem_cons, goodRun, Option.isSome_some, true_and]
              exact ih _ hrest
            | none =>
              simp only [tokenizeF, numRunsF, hst, hnum, hdot, hq,
                Bool.false_eq_true, if_false, if_true, Option.isSome_none,
                List.forall_mem_cons, goodRun, false_iff, not_and]
              intro hfalse
              cases hfalse
        · by_cases hid : identStart c
          · have hrest : (cs.dropWhile identCont).length ≤ fuel :=
              le_trans (dropWhile_length_le identCont cs) hcs
            simp only [tokenizeF, numRunsF, hst, hnum, hid,
              Bool.false_eq_true, if_false, if_true, Option.isSome_map']
            exact ih _ hrest
          · by_cases hws : isWs c
            · simp only [tokenizeF, numRunsF, hst, hnum, hid, hws,
                Bool.false_eq_true, if_false, if_true, Option.isSome_map']
              exact ih cs hcs
            · simp only [tokenizeF, numRunsF, hst, hnum, hid, hws,
                Bool.false_eq_true, if_false, Option.isSome_map']
              exact ih cs hcs

/-- Claim C3 (amended): tokenize returns an ordered token sequence
exactly when every maximal number run it scans survives its literal
parse (a dotted run must contain exactly one dot and a digit, a dotless
run must fit in i64) — on a run like 1.2.3 the `unwrap` of the failed
float parse panics instead of producing a float token; any character not
matched as an identifier, number, operator, bracket, comma or whitespace
still passes through as an explicit Unknown(char) token; and a number
run with exactly one dot does lex as one single float token. -/
theorem C3_tokenize_totality (fuel : Nat) (l : List Char) (c d : Char)
    (cs ds : List Char) (qv : ℚ) (hl : l.length ≤ fuel)
    (h1 : singleTok c = none) (h2 : numCont c = false)
    (h3 : identStart c = false) (h4 : isWs c = false)
    (hsd : singleTok d = none) (hnd : numCont d = true)
    (hdot : (d :: ds.takeWhile numCont).contains '.' = true)
    (hq : parseF64 (d :: ds.takeWhile numCont) = some qv) :
    ((tokenizeF fuel l).isSome ↔ ∀ r ∈ numRunsF fuel l, goodRun r)
    ∧ tokenizeF (fuel + 1) (c :: cs) =
      (tokenizeF fuel cs).map (fun ts => Token.unknown c :: ts)
    ∧ tokenizeF (fuel + 1) (d :: ds) =
      (tokenizeF fuel (ds.dropWhile numCont)).map
        (fun ts => Token.float qv :: ts) := by
  refine ⟨tokenizeF_isSome_iff fuel l hl, ?_, ?_⟩
  · simp only [tokenizeF, h1, h2, h3, h4, Bool.false_eq_true, if_false]
  · simp only [tokenizeF, hsd, hnd, hdot, hq, if_true]

/-- Witness for the amended C3: the input 1.5+ has one good number run
and tokenizes; an at-sign passes through as Unknown; the run 1.5 lexes
as the single float token of value 1 + 5/10. -/
theorem C3_tokenize_totality_witness :
    ((['1', '.', '5', '+'] : List Char).length ≤ 4
    ∧ singleTok '@' = none ∧ numCont '@' = false
    ∧ parseF64 ('1' :: (['.', '5', '+'] : List Char).takeWhile numCont) =
        some ((digitsVal ['1'] : ℚ) + (digitsVal ['5'] : ℚ) /
          (10 : ℚ) ^ (1 : Nat)))
    ∧ (((tokenizeF 4 ['1', '.', '5', '+']).isSome ↔
        ∀ r ∈ numRunsF 4 ['1', '.', '5', '+'], goodRun r)
      ∧ tokenizeF 5 ('@' :: ['a']) =
        (tokenizeF 4 ['a']).map (fun ts => Token.unknown '@' :: ts)
      ∧ tokenizeF 5 ('1' :: ['.', '5', '+']) =
        (tokenizeF 4 ((['.', '5', '+'] : List Char).dropWhile numCont)).map
          (fun ts => Token.float ((digitsVal ['1'] : ℚ) +
            (digitsVal ['5'] : ℚ) / (10 : ℚ) ^ (1 : Nat)) :: ts)) :=
  ⟨⟨by decide, rfl, by decide, rfl⟩,
    C3_tokenize_totality 4 ['1', '.', '5', '+'] '@' '1' ['a']
      ['.', '5', '+'] ((digitsVal ['1'] : ℚ) + (digitsVal ['5'] : ℚ) /
        (10 : ℚ) ^ (1 : Nat)) (by decide) rfl (by decide) (by decide)
      (by decide) rfl (by decide) (by decide) rfl⟩

/-- Counterexample to C3 as stated: on the input 1.2.3 (a number run
with two dots) the tokenizer does not return a token sequence at all:
the `unwrap` of the failed float parse panics (modelled by `none`). -/
theorem C3_counterexample : tokenize "1.2.3" = none := rfl
